import Mathlib

/-
Verification of the service-discovery abstraction layer of the agent
(package listeners, file src/unnamed/part_000) and of the GUI rendering
helpers (src/cmd/gui/render.go), against the natural-language
specification.

The Go code is shallowly embedded: Go maps become functions
String -> Option V, Go nilable function values become Option values,
log calls become an explicit list of emitted log messages, Go errors
become an explicit inductive type with allocation identity, and
fallible operations return Except values.
-/

/-- ID is the representation of the unique ID of a Service
(Go: type ID string). -/
abbrev ID := String

/-- ContainerPort represents a network port in a Service
(Go: struct with Port int and Name string; Port is a plain machine
integer, the source declares no range constraint on it). -/
structure ContainerPort where
  Port : Int
  Name : String
  deriving DecidableEq

/-- A log message emitted through the log package. Register calls
log.Warnf and log.Errorf; the embedding records them explicitly. -/
inductive LogMsg where
  | warn (s : String)
  | error (s : String)
  deriving DecidableEq

/-- A Go map with string keys, modelled as a function from keys to
Option values: some v means the key is present with value v, none means
absent. Go map indexing, assignment and the two-result presence test
are modelled below. -/
def GoMap (V : Type) : Type := String → Option V

/-- The empty Go map, as built by make(map[string]V). -/
def GoMap.empty {V : Type} : GoMap V := fun _ => none

/-- Go map assignment m[k] = v: the key k now maps to v, every other
key is unchanged. -/
def GoMap.assign {V : Type} (m : GoMap V) (k : String) (v : V) : GoMap V :=
  fun q => if q = k then some v else m q

/-- The boolean second result of the Go two-result map read
value, ok := m[k]: whether the key is present. -/
def GoMap.contains {V : Type} (m : GoMap V) (k : String) : Bool :=
  (m k).isSome

/-- The registry value type: a stored ServiceListenerFactory is a Go
function value and may be nil, so an entry holds an Option of the
factory payload. The payload type is abstract (a type parameter), since
the registry code never calls the factories it stores. -/
abbrev FactoryVal (α : Type) := Option α

/-- Register registers a service listener factory, translated
line by line from the source:

  if factory == nil then log.Warnf("Service listener factory %s does not exist.", name);
  _, registered := ServiceListenerFactories[name];
  if registered then log.Errorf("Service listener factory %s already registered. Ignoring.", name);
  ServiceListenerFactories[name] = factory.

Both checks only log and fall through; the final assignment is executed
unconditionally. Go Register returns nothing; the second component of
the result pair is the list of log messages the call emits (the log
sink, not a value returned to the caller). -/
def Register {α : Type} (name : String) (factory : Option α)
    (reg : GoMap (FactoryVal α)) : GoMap (FactoryVal α) × List LogMsg :=
  let warnLogs :=
    if factory.isNone then
      [LogMsg.warn ("Service listener factory " ++ name ++ " does not exist.")]
    else []
  let registered := GoMap.contains reg name
  let errLogs :=
    if registered then
      [LogMsg.error ("Service listener factory " ++ name ++ " already registered. Ignoring.")]
    else []
  (GoMap.assign reg name factory, warnLogs ++ errLogs)

/-- C1 (code bug, evaluation at the failing input): calling
Register("docker", nil) on the empty registry DOES add an entry: the
nil-factory branch only logs a warning and execution falls through to
the unconditional map assignment, so afterwards the registry contains
the key "docker", mapped to the nil factory, and the warning is in the
log. This contradicts the claim (and the evident intent of the guard:
a stored nil factory can only fail when invoked) that a nil-factory
call leaves the registry unchanged. -/
theorem register_nil_factory_inserts_entry :
    GoMap.contains ((Register "docker" (none : Option Nat) GoMap.empty).fst) "docker" = true ∧
    ((Register "docker" (none : Option Nat) GoMap.empty).fst) "docker" = some none ∧
    GoMap.contains ((GoMap.empty : GoMap (FactoryVal Nat))) "docker" = false ∧
    (Register "docker" (none : Option Nat) GoMap.empty).snd
      = [LogMsg.warn "Service listener factory docker does not exist."] := by
  refine ⟨rfl, rfl, rfl, rfl⟩

/-- C2: registering the same name twice with non-nil factories f1 then
f2 leaves the registry mapping name to f2 (the second assignment
overwrites the first), and the caller-visible result of the second call
is exactly the registry produced by registering f2 directly: Go
Register returns no value, so the duplicate is signalled only through
the log sink, never to the caller. -/
theorem register_twice_overwrites {α : Type} (name : String) (f1 f2 : α)
    (reg : GoMap (FactoryVal α)) :
    ((Register name (some f2) ((Register name (some f1) reg).fst)).fst) name
      = some (some f2) ∧
    ((Register name (some f2) ((Register name (some f1) reg).fst)).fst)
      = (Register name (some f2) reg).fst := by
  constructor
  · simp [Register, GoMap.assign]
  · funext q
    by_cases h : q = name <;> simp [Register, GoMap.assign, h]

/-- C7: Register is total and returns no error for every input. The
caller-visible result is always exactly the registry with name assigned
to the given factory, whatever the inputs (nil factory or duplicate
name included), and the log sink is nonempty exactly when one of the
two failure conditions held: failures are observable only through logs. -/
theorem register_total_no_error {α : Type} (name : String) (factory : Option α)
    (reg : GoMap (FactoryVal α)) :
    (Register name factory reg).fst = GoMap.assign reg name factory ∧
    ((Register name factory reg).snd ≠ [] ↔
      (factory = none ∨ GoMap.contains reg name = true)) := by
  constructor
  · rfl
  · cases factory <;> by_cases h : GoMap.contains reg name = true <;>
      simp [Register, h]

/-- A Go error value. errors.New allocates a fresh error with identity:
two errors built by distinct errors.New calls are different even when
their message strings coincide, so base carries an allocation identity
besides the message. wrap models a backend adding context around an
inner error (fmt.Errorf with %w or an equivalent wrapper). -/
inductive GoError where
  | base (id : Nat) (msg : String)
  | wrap (ctx : String) (inner : GoError)
  deriving DecidableEq

/-- The message text of a Go error (err.Error()): a wrapper prepends
its context to the message of the inner error. -/
def GoError.errMsg : GoError → String
  | GoError.base _ m => m
  | GoError.wrap c inner => c ++ ": " ++ GoError.errMsg inner

/-- errors.Is for this error model: e matches target when e is target
itself or some error in the wrap chain of e is target. Identity
comparison, independent of message text. -/
def errorsIs : GoError → GoError → Bool
  | GoError.base i m, target => decide (GoError.base i m = target)
  | GoError.wrap c inner, target =>
      decide (GoError.wrap c inner = target) || errorsIs inner target

/-- e wraps-or-is t: e is t itself or t wrapped in finitely many
context layers. -/
inductive Wraps : GoError → GoError → Prop where
  | refl (e : GoError) : Wraps e e
  | step (c : String) {e t : GoError} : Wraps e t → Wraps (GoError.wrap c e) t

/-- ErrNotSupported is thrown if listener does not support the asked
variable (Go: var ErrNotSupported = errors.New("AD: variable not
supported by listener")). Allocation identity 0 marks this particular
errors.New call site. -/
def ErrNotSupported : GoError :=
  GoError.base 0 "AD: variable not supported by listener"

/-- The error values exported by the listeners package: the source
declares exactly one, ErrNotSupported. -/
def listenersErrorSentinels : List GoError := [ErrNotSupported]

/-- Every error matches itself under errorsIs. -/
theorem errorsIs_self (e : GoError) : errorsIs e e = true := by
  cases e <;> simp [errorsIs]

/-- errorsIs recognizes any error that is, or wraps, the target. -/
theorem errorsIs_of_wraps {e t : GoError} (h : Wraps e t) :
    errorsIs e t = true := by
  induction h with
  | refl e => exact errorsIs_self e
  | step c hw ih => simp [errorsIs, ih]

/-- C4: the package standardizes exactly one error sentinel,
ErrNotSupported, and it is identity-comparable: every error that is, or
wraps, the sentinel is recognized by errorsIs, while an error that
merely has the same message text but a different identity is not
recognized — consumers test by identity, not by message text. -/
theorem errNotSupported_sentinel (e : GoError) (h : Wraps e ErrNotSupported) :
    listenersErrorSentinels = [ErrNotSupported] ∧
    listenersErrorSentinels.length = 1 ∧
    errorsIs e ErrNotSupported = true ∧
    ∃ e2 : GoError, GoError.errMsg e2 = GoError.errMsg ErrNotSupported ∧
      errorsIs e2 ErrNotSupported = false := by
  exact ⟨rfl, rfl, errorsIs_of_wraps h,
    ⟨GoError.base 1 "AD: variable not supported by listener", rfl, by decide⟩⟩

/-- Witness for C4 at the concrete error wrap "docker" ErrNotSupported. -/
theorem errNotSupported_sentinel_witness :
    listenersErrorSentinels = [ErrNotSupported] ∧
    listenersErrorSentinels.length = 1 ∧
    errorsIs (GoError.wrap "docker" ErrNotSupported) ErrNotSupported = true ∧
    ∃ e2 : GoError, GoError.errMsg e2 = GoError.errMsg ErrNotSupported ∧
      errorsIs e2 ErrNotSupported = false :=
  errNotSupported_sentinel (GoError.wrap "docker" ErrNotSupported)
    (Wraps.step "docker" (Wraps.refl ErrNotSupported))

/-- Service represents an application we can run a check against,
embedded as a record of the observable results of its seven accessors,
with the Go result types translated: GetID returns a bare ID (no error
result in the interface), every other accessor returns a value-or-error
pair, embedded as Except. GetHosts maps network names to addresses. -/
structure Service where
  GetID : ID
  GetADIdentifiers : Except GoError (List String)
  GetHosts : Except GoError (List (String × String))
  GetPorts : Except GoError (List ContainerPort)
  GetTags : Except GoError (List String)
  GetPid : Except GoError Int
  GetHostname : Except GoError String

/-- The seven accessor methods of the Service interface, as an
enumeration, in source order. -/
inductive ServiceAccessor where
  | getID
  | getADIdentifiers
  | getHosts
  | getPorts
  | getTags
  | getPid
  | getHostname
  deriving DecidableEq

/-- Whether the Go signature of the accessor has an error result,
read off the interface declaration: GetID() ID has none, the other six
all return (value, error). -/
def accessorHasErrorResult : ServiceAccessor → Bool
  | ServiceAccessor.getID => false
  | ServiceAccessor.getADIdentifiers => true
  | ServiceAccessor.getHosts => true
  | ServiceAccessor.getPorts => true
  | ServiceAccessor.getTags => true
  | ServiceAccessor.getPid => true
  | ServiceAccessor.getHostname => true

/-- The accessor list of the Service interface, in source order. -/
def serviceAccessors : List ServiceAccessor :=
  [ServiceAccessor.getID, ServiceAccessor.getADIdentifiers,
   ServiceAccessor.getHosts, ServiceAccessor.getPorts,
   ServiceAccessor.getTags, ServiceAccessor.getPid,
   ServiceAccessor.getHostname]

/-- C5: GetID always succeeds — its signature has no error result and
every Service yields an ID from it — while each of the other six
accessors returns a value-or-error pair; the interface has exactly
seven accessors. -/
theorem service_accessor_signatures (a : ServiceAccessor)
    (h : a ≠ ServiceAccessor.getID) (s : Service) :
    accessorHasErrorResult ServiceAccessor.getID = false ∧
    accessorHasErrorResult a = true ∧
    serviceAccessors.length = 7 ∧
    ∃ i : ID, s.GetID = i := by
  refine ⟨rfl, ?_, rfl, ⟨s.GetID, rfl⟩⟩
  cases a
  · exact absurd rfl h
  all_goals rfl

/-- A concrete Service for the C5 witness: a backend that supports
everything except process identifiers, for which it returns the
sentinel. -/
def sampleService : Service :=
  ⟨"svc-1", Except.ok ["redis"], Except.ok [("bridge", "172.17.0.2")],
   Except.ok [⟨6379, "tcp"⟩], Except.ok ["env:test"],
   Except.error ErrNotSupported, Except.ok "svc-1.local"⟩

/-- Witness for C5 at the accessor getPid and the concrete
sampleService. -/
theorem service_accessor_signatures_witness :
    accessorHasErrorResult ServiceAccessor.getID = false ∧
    accessorHasErrorResult ServiceAccessor.getPid = true ∧
    serviceAccessors.length = 7 ∧
    ∃ i : ID, sampleService.GetID = i :=
  service_accessor_signatures ServiceAccessor.getPid (by decide) sampleService

/-- C6 counterexample: the claim that every constructible ContainerPort
has its Port in 0–65535 is false: Port is a plain machine integer field
with no constraint in the source, so the value -1 (a valid Go int) is
constructible. -/
theorem containerPort_range_counterexample :
    ¬ (∀ cp : ContainerPort, 0 ≤ cp.Port ∧ cp.Port ≤ 65535) :=
  fun h => absurd (h ⟨-1, ""⟩).1 (by decide)

/-- C6 amended: the Port field of ContainerPort is an unconstrained
integer: the constructor stores any integer unchanged, and values below
0 and above 65535 are both constructible — the 0–65535 range of the
specification is a documented convention, not an invariant enforced by
the type. -/
theorem containerPort_port_unconstrained :
    (∀ (p : Int) (n : String), (ContainerPort.mk p n).Port = p) ∧
    (∃ cp : ContainerPort, cp.Port < 0) ∧
    (∃ cp : ContainerPort, 65535 < cp.Port) :=
  ⟨fun p n => rfl, ⟨⟨-1, ""⟩, by decide⟩, ⟨⟨70000, ""⟩, by decide⟩⟩

/-- A lifecycle event of a ServiceListener, as delivered on the two
channels of Listen(newSvc, delSvc): add i is a Service with GetID i
pushed on the add channel, del i one pushed on the delete channel. The
event kind records which channel carried it. -/
inductive SvcEvent where
  | add (i : ID)
  | del (i : ID)
  deriving DecidableEq

/-- Whether an event carries the given ID (on either channel). -/
def mentionsID (i : ID) : SvcEvent → Bool
  | SvcEvent.add j => j == i
  | SvcEvent.del j => j == i

/-- Modelled from the spec: the source declares ServiceListener only as
an interface (Listen and Stop signatures); the per-ID ordering
discipline of the event stream is the contract stated in the spec. One
step of the contract state machine: the state is the list of live IDs,
an ID may be added only while not live and deleted only while live;
any other event is a contract violation (none). -/
def svcStep (live : List ID) : SvcEvent → Option (List ID)
  | SvcEvent.add i => if i ∈ live then none else some (i :: live)
  | SvcEvent.del i => if i ∈ live then some (live.erase i) else none

/-- Modelled from the spec: running the contract state machine over a
whole event trace from a given live set; none when some event violates
the contract. -/
def svcExec (live : List ID) : List SvcEvent → Option (List ID)
  | [] => some live
  | e :: es =>
    match svcStep live e with
    | some live2 => svcExec live2 es
    | none => none

/-- Modelled from the spec: a merged event trace of one ServiceListener
is valid when the contract state machine accepts it starting from the
empty live set (no service is live before Listen). -/
def ValidStream (es : List SvcEvent) : Prop :=
  (svcExec [] es).isSome = true

/-- Executing an appended trace is executing the first part, then the
second from the state the first part reached. -/
theorem svcExec_append (live : List ID) (xs ys : List SvcEvent) :
    svcExec live (xs ++ ys)
      = Option.bind (svcExec live xs) (fun l2 => svcExec l2 ys) := by
  induction xs generalizing live with
  | nil => simp [svcExec]
  | cons e xs ih =>
    rw [List.cons_append]
    cases he : svcStep live e with
    | none => simp [svcExec, he]
    | some live2 => simp [svcExec, he, ih]

/-- In any accepted trace, a delete of an ID that is not live at the
start is preceded, within the trace, by an add of that ID. -/
theorem add_before_del (i : ID) (l1 l2 : List SvcEvent) :
    ∀ live : List ID,
      (svcExec live (l1 ++ SvcEvent.del i :: l2)).isSome = true →
      i ∉ live → SvcEvent.add i ∈ l1 := by
  induction l1 with
  | nil =>
    intro live hex hmem
    exfalso
    simp [svcExec, svcStep, hmem] at hex
  | cons e l1 ih =>
    intro live hex hmem
    rw [List.cons_append] at hex
    cases he : svcStep live e with
    | none => simp [svcExec, he] at hex
    | some live2 =>
      have hex2 : (svcExec live2 (l1 ++ SvcEvent.del i :: l2)).isSome = true := by
        simpa [svcExec, he] using hex
      by_cases heq : e = SvcEvent.add i
      · rw [heq]
        exact List.mem_cons_self _ _
      · have hmem2 : i ∉ live2 := by
          cases e with
          | add j =>
            by_cases hj : j ∈ live
            · simp [svcStep, hj] at he
            · simp [svcStep, hj] at he
              have hij : i ≠ j := fun hc => heq (by rw [hc])
              rw [← he]
              simp [hij, hmem]
          | del j =>
            by_cases hj : j ∈ live
            · simp [svcStep, hj] at he
              rw [← he]
              exact fun hc => hmem (List.mem_of_mem_erase hc)
            · simp [svcStep, hj] at he
        exact List.mem_cons_of_mem e (ih live2 hex2 hmem2)

/-- In any accepted trace, a second add of an ID that is live at the
start is preceded, within the trace, by a delete of that ID. -/
theorem del_before_readd (i : ID) (l1 l2 : List SvcEvent) :
    ∀ live : List ID,
      (svcExec live (l1 ++ SvcEvent.add i :: l2)).isSome = true →
      i ∈ live → SvcEvent.del i ∈ l1 := by
  induction l1 with
  | nil =>
    intro live hex hmem
    exfalso
    simp [svcExec, svcStep, hmem] at hex
  | cons e l1 ih =>
    intro live hex hmem
    rw [List.cons_append] at hex
    cases he : svcStep live e with
    | none => simp [svcExec, he] at hex
    | some live2 =>
      have hex2 : (svcExec live2 (l1 ++ SvcEvent.add i :: l2)).isSome = true := by
        simpa [svcExec, he] using hex
      by_cases heq : e = SvcEvent.del i
      · rw [heq]
        exact List.mem_cons_self _ _
      · have hmem2 : i ∈ live2 := by
          cases e with
          | add j =>
            by_cases hj : j ∈ live
            · simp [svcStep, hj] at he
            · simp [svcStep, hj] at he
              rw [← he]
              exact List.mem_cons_of_mem j hmem
          | del j =>
            by_cases hj : j ∈ live
            · simp [svcStep, hj] at he
              have hij : i ≠ j := fun hc => heq (by rw [hc])
              rw [← he]
              exact (List.mem_erase_of_ne hij).mpr hmem
            · simp [svcStep, hj] at he
        exact List.mem_cons_of_mem e (ih live2 hex2 hmem2)

/-- C3: for every valid ServiceListener event stream and every ID:
(1) the first event carrying that ID (on either channel) is an add
event; (2) every delete event for that ID is preceded by an add event
for it; (3) between any two add events for the same ID there is an
intervening delete event for that ID. -/
theorem service_event_ordering (es : List SvcEvent) (h : ValidStream es) (i : ID) :
    (∀ l1 e l2, es = l1 ++ e :: l2 → mentionsID i e = true →
        (∀ e2 ∈ l1, mentionsID i e2 = false) → e = SvcEvent.add i) ∧
    (∀ l1 l2, es = l1 ++ SvcEvent.del i :: l2 → SvcEvent.add i ∈ l1) ∧
    (∀ l1 l2 l3, es = l1 ++ SvcEvent.add i :: (l2 ++ SvcEvent.add i :: l3) →
        SvcEvent.del i ∈ l2) := by
  have part2 : ∀ l1 l2, es = l1 ++ SvcEvent.del i :: l2 → SvcEvent.add i ∈ l1 := by
    intro l1 l2 heq
    have hex : (svcExec [] (l1 ++ SvcEvent.del i :: l2)).isSome = true := heq ▸ h
    exact add_before_del i l1 l2 [] hex (List.not_mem_nil i)
  refine ⟨?_, part2, ?_⟩
  · intro l1 e l2 heq hm hl1
    cases e with
    | add j =>
      have hj : j = i := by simpa [mentionsID] using hm
      rw [hj]
    | del j =>
      have hj : j = i := by simpa [mentionsID] using hm
      subst hj
      have hadd := part2 l1 l2 heq
      have hfalse := hl1 (SvcEvent.add j) hadd
      simp [mentionsID] at hfalse
  · intro l1 l2 l3 heq
    have hex : (svcExec []
        ((l1 ++ [SvcEvent.add i]) ++ (l2 ++ SvcEvent.add i :: l3))).isSome = true := by
      have hex0 : (svcExec []
          (l1 ++ SvcEvent.add i :: (l2 ++ SvcEvent.add i :: l3))).isSome = true := heq ▸ h
      simpa [List.append_assoc] using hex0
    rw [svcExec_append] at hex
    cases hx : svcExec [] (l1 ++ [SvcEvent.add i]) with
    | none => rw [hx] at hex; simp at hex
    | some liveA =>
      rw [hx] at hex
      simp only [Option.some_bind] at hex
      have hmemA : i ∈ liveA := by
        rw [svcExec_append] at hx
        cases hy : svcExec [] l1 with
        | none => rw [hy] at hx; simp at hx
        | some live1 =>
          rw [hy] at hx
          simp only [Option.some_bind] at hx
          by_cases hz : i ∈ live1
          · simp [svcExec, svcStep, hz] at hx
          · simp [svcExec, svcStep, hz] at hx
            rw [← hx]
            exact List.mem_cons_self i live1
      exact del_before_readd i l2 l3 liveA hex hmemA

/-- Witness for C3 at the concrete valid trace
add a, del a, add a, add b with the ID a. -/
theorem service_event_ordering_witness :
    (∀ l1 e l2,
        [SvcEvent.add "a", SvcEvent.del "a", SvcEvent.add "a", SvcEvent.add "b"]
          = l1 ++ e :: l2 → mentionsID "a" e = true →
        (∀ e2 ∈ l1, mentionsID "a" e2 = false) → e = SvcEvent.add "a") ∧
    (∀ l1 l2,
        [SvcEvent.add "a", SvcEvent.del "a", SvcEvent.add "a", SvcEvent.add "b"]
          = l1 ++ SvcEvent.del "a" :: l2 → SvcEvent.add "a" ∈ l1) ∧
    (∀ l1 l2 l3,
        [SvcEvent.add "a", SvcEvent.del "a", SvcEvent.add "a", SvcEvent.add "b"]
          = l1 ++ SvcEvent.add "a" :: (l2 ++ SvcEvent.add "a" :: l3) →
        SvcEvent.del "a" ∈ l2) :=
  service_event_ordering
    [SvcEvent.add "a", SvcEvent.del "a", SvcEvent.add "a", SvcEvent.add "b"]
    (by show (svcExec [] _).isSome = true; decide) "a"

/-- A Go float64 value as used by mkHuman, represented by the integer
value of its truncating conversion int64(f): per the claim only floats
whose truncation to int64 is defined are considered, and the conversion
is the only operation mkHuman applies to its float argument. -/
structure Float64 where
  trunc : Int

/-- mkHuman from render.go, translated from the source:
i := int64(f); str := fmt.Sprintf("%d", i); then str is replaced by
"over 1M" when i > 1000000, else by "over 100K" when i > 100000;
str is returned. -/
def mkHuman (f : Float64) : String :=
  let i : Int := f.trunc
  let str := toString i
  if i > 1000000 then "over 1M"
  else if i > 100000 then "over 100K"
  else str

/-- mkHumanInt from render.go, translated from the source:
str := fmt.Sprintf("%d", i); then str is replaced by "over 1M" when
i > 1000000, else by "over 100K" when i > 100000; str is returned. -/
def mkHumanInt (i : Int) : String :=
  let str := toString i
  if i > 1000000 then "over 1M"
  else if i > 100000 then "over 100K"
  else str

/-- C9: for every float64 whose truncation to int64 is defined (the
truncated value fits in the signed 64-bit range), mkHuman returns
exactly what mkHumanInt returns on the truncated value: the
float-accepting humanizer is the integer humanizer composed with
truncating conversion. -/
theorem mkHuman_eq_mkHumanInt_trunc (f : Float64)
    (h : -(2 ^ 63) ≤ f.trunc ∧ f.trunc < 2 ^ 63) :
    mkHuman f = mkHumanInt f.trunc := rfl

/-- Witness for C9 at the concrete float with truncation 1234567. -/
theorem mkHuman_eq_mkHumanInt_trunc_witness :
    (-(2 ^ 63) ≤ (Float64.mk 1234567).trunc ∧ (Float64.mk 1234567).trunc < 2 ^ 63) ∧
    mkHuman (Float64.mk 1234567) = mkHumanInt (Float64.mk 1234567).trunc :=
  ⟨⟨by decide, by decide⟩,
   mkHuman_eq_mkHumanInt_trunc (Float64.mk 1234567) ⟨by decide, by decide⟩⟩

/-- fillTemplate from render.go, translated from the source: it builds
a template named request + ".tmpl", installs the function map, parses
the file "templates/" + request + ".tmpl" (returning the parse error if
any), and otherwise executes the template over the stats map, returning
the execution result. The template engine (html/template) is external
to the repository, so parsing and execution are parameters: parseFiles
maps a file path to a parsed template or an error, execute maps a
template and the data map to the rendered output or an error. -/
def fillTemplate {Tmpl M : Type} (parseFiles : String → Except GoError Tmpl)
    (execute : Tmpl → M → Except GoError String)
    (stats : M) (request : String) : Except GoError String :=
  match parseFiles ("templates/" ++ request ++ ".tmpl") with
  | Except.error e => Except.error e
  | Except.ok t => execute t stats

/-- renderStatus from render.go, translated from the source: it
unmarshals the JSON payload into a fresh stats map, DISCARDING the
error result of json.Unmarshal (the source assigns it to nothing), then
calls fillTemplate on the resulting map with template name
request + "Status"; on a fillTemplate error it returns ("", e),
otherwise the rendered buffer. The JSON decoder (encoding/json) is
external to the repository, so it is a parameter: unmarshal maps the
raw bytes to the map state it leaves behind together with its error
result. -/
def renderStatus {B Tmpl M : Type} (unmarshal : B → M × Option GoError)
    (parseFiles : String → Except GoError Tmpl)
    (execute : Tmpl → M → Except GoError String)
    (data : B) (request : String) : Except GoError String :=
  let stats := (unmarshal data).fst
  match fillTemplate parseFiles execute stats (request ++ "Status") with
  | Except.error e => Except.error e
  | Except.ok s => Except.ok s

/-- C10: renderStatus never fails because of malformed input data: the
error result of the JSON unmarshalling step is discarded, so for every
byte payload (invalid JSON included) renderStatus renders the template
over whatever map the unmarshalling step left behind, and it returns an
error if and only if fillTemplate fails on that map — erasing the
unmarshal error component changes nothing. -/
theorem renderStatus_error_iff_fillTemplate {B Tmpl M : Type}
    (unmarshal : B → M × Option GoError)
    (parseFiles : String → Except GoError Tmpl)
    (execute : Tmpl → M → Except GoError String)
    (data : B) (request : String) :
    (∀ e, renderStatus unmarshal parseFiles execute data request = Except.error e ↔
        fillTemplate parseFiles execute (unmarshal data).fst (request ++ "Status")
          = Except.error e) ∧
    (∀ s, renderStatus unmarshal parseFiles execute data request = Except.ok s ↔
        fillTemplate parseFiles execute (unmarshal data).fst (request ++ "Status")
          = Except.ok s) ∧
    renderStatus (fun b => ((unmarshal b).fst, none)) parseFiles execute data request
      = renderStatus unmarshal parseFiles execute data request := by
  unfold renderStatus
  cases hf : fillTemplate parseFiles execute (unmarshal data).fst (request ++ "Status") <;>
    simp [hf]
